import Mathlib

/-!
Shallow embedding of the catch-the-cat competition runner
(gameguild-gg/catch-the-cat-ai-competition).

Sources embedded:
- src/src/board.ts                       : Board, Position, Turn, MoveReport,
                                           MatchReport, UserScore, CompetitionReport
- src/generateReport.ts (current copy)   : requestMove classification, runMatch,
                                           calculateUserScores, compressBoard,
                                           optimizeCompetitionReport
- src/src/components/CompetitionReport.tsx : decompressBoard,
                                           deoptimizeCompetitionReport

Modelling conventions:
- JS strings are `List Char`; numeric values are `Rat` (JS numbers; the
  claims under study only copy, add, subtract, divide and compare them,
  which `Rat` models faithfully on the inputs involved).
- Exceptions are `Except String` or a `Board × Option String` pair (a call
  that throws leaves the receiver exactly as it was, which the pair records).
- The dynamically-added JS properties `catWins` / `catcherWins` on
  `UserScore` (the class does not declare them) are modelled by `JsNum`:
  an absent property reads as `undefined`, and `undefined + 1` is `NaN`.
- The per-move time penalty formula uses `Math.cbrt` (an irrational float
  function); per spec section 9 it is a swappable parameter, so the match
  loop is parameterised over `penalty : Rat → Rat`.
-/

namespace CatchTheCat

/-- Turn enum from board.ts (values are the strings cat / catcher). -/
inductive Turn where
  | cat
  | catcher
deriving DecidableEq

/-- The string value of a Turn (used in error messages and CLI arguments). -/
def turnString : Turn → String
  | .cat => "cat"
  | .catcher => "catcher"

/-- `this.turn === Turn.Cat ? Turn.Catcher : Turn.Cat` from Board.move. -/
def flipTurn : Turn → Turn
  | .cat => .catcher
  | .catcher => .cat

/-- Position from board.ts: a pair of signed integers, structural equality. -/
structure Position where
  x : Int
  y : Int
deriving DecidableEq

/-- Board from board.ts: side length, current turn, flat grid string,
cat position and the two participant usernames. -/
structure Board where
  side : Nat
  turn : Turn
  board : List Char
  catPosition : Position
  catUsername : String
  catcherUsername : String
deriving DecidableEq

/-- JS truthiness of `p.y % 2` (nonzero remainder, i.e. odd row). -/
def oddRow (p : Position) : Bool := p.y % 2 ≠ 0

/-- Neighbor E from board.ts. -/
def hexE (p : Position) : Position := ⟨p.x + 1, p.y⟩

/-- Neighbor W from board.ts. -/
def hexW (p : Position) : Position := ⟨p.x - 1, p.y⟩

/-- Neighbor NE from board.ts. -/
def hexNE (p : Position) : Position :=
  if oddRow p then ⟨p.x + 1, p.y - 1⟩ else ⟨p.x, p.y - 1⟩

/-- Neighbor NW from board.ts. -/
def hexNW (p : Position) : Position :=
  if oddRow p then ⟨p.x, p.y - 1⟩ else ⟨p.x - 1, p.y - 1⟩

/-- Neighbor SE from board.ts. -/
def hexSE (p : Position) : Position :=
  if oddRow p then ⟨p.x, p.y + 1⟩ else ⟨p.x - 1, p.y + 1⟩

/-- Neighbor SW from board.ts. -/
def hexSW (p : Position) : Position :=
  if oddRow p then ⟨p.x + 1, p.y + 1⟩ else ⟨p.x, p.y + 1⟩

/-- `Math.floor(this.side / 2)`. -/
def Board.sideOver2 (b : Board) : Nat := b.side / 2

/-- isValidPosition from board.ts. -/
def Board.isValidPosition (b : Board) (p : Position) : Bool :=
  let s2 : Int := b.sideOver2
  decide (-s2 ≤ p.x ∧ p.x ≤ s2 ∧ p.y ≤ s2 ∧ -s2 ≤ p.y)

/-- isNeighbor from board.ts: p2 is among the six neighbor cells of p1. -/
def Board.isNeighbor (_b : Board) (p1 p2 : Position) : Bool :=
  [hexNE p1, hexNW p1, hexE p1, hexW p1, hexSE p1, hexSW p1].any
    (fun n => n = p2)

/-- positionToIndex from board.ts (kept as a signed integer as in JS). -/
def Board.positionToIndex (b : Board) (p : Position) : Int :=
  let s2 : Int := b.sideOver2
  (p.y + s2) * b.side + p.x + s2

/-- indexToPosition from board.ts. -/
def Board.indexToPosition (b : Board) (index : Nat) : Position :=
  let s2 : Int := b.sideOver2
  ⟨(index % b.side : Nat) - s2, (index / b.side : Nat) - s2⟩

/-- getContent from board.ts: out of bounds reads as blocked; otherwise the
grid character at the index is compared with the blocked marker.  A read past
the end of a JS string yields `undefined`, which compares unequal with
the blocked marker; the sentinel default models that. -/
def Board.getContent (b : Board) (p : Position) : Bool :=
  if b.isValidPosition p = false then true
  else decide (b.board.getD (b.positionToIndex p).toNat 'λ' = '#')

/-- setContent from board.ts: no-op out of bounds, otherwise rewrite the
single character at the position index. -/
def Board.setContent (b : Board) (p : Position) (blocked : Bool) : Board :=
  if b.isValidPosition p = false then b
  else { b with board := b.board.set (b.positionToIndex p).toNat
                  (if blocked then '#' else '.') }

/-- catWinVerification from board.ts. -/
def Board.catWinVerification (b : Board) : Bool :=
  decide (b.catPosition.x.natAbs = b.sideOver2 ∨ b.catPosition.y.natAbs = b.sideOver2)

/-- catcherWinVerification from board.ts: every neighbor of the cat reads
as blocked (out of bounds counts as blocked). -/
def Board.catcherWinVerification (b : Board) : Bool :=
  [hexNE b.catPosition, hexNW b.catPosition, hexE b.catPosition,
   hexW b.catPosition, hexSE b.catPosition, hexSW b.catPosition].all
    (fun n => b.getContent n)

/-- catCanMoveToPosition from board.ts. -/
def Board.catCanMoveToPosition (b : Board) (p : Position) : Bool :=
  b.isNeighbor b.catPosition p && !(b.getContent p)

/-- catcherCanMoveToPosition from board.ts. -/
def Board.catcherCanMoveToPosition (b : Board) (p : Position) : Bool :=
  !(decide (p = b.catPosition)) &&
  decide (p.x.natAbs ≤ b.sideOver2) &&
  decide (p.y.natAbs ≤ b.sideOver2) &&
  !(b.getContent p)

/-- validateMove from board.ts. -/
def Board.validateMove (b : Board) (p : Position) : Bool :=
  match b.turn with
  | .cat => b.catCanMoveToPosition p
  | .catcher => b.catcherCanMoveToPosition p

/-- move from board.ts.  The TS method throws before touching any state
when validateMove fails; the returned pair is (state after the call,
thrown error message if any). -/
def Board.move (b : Board) (p : Position) : Board × Option String :=
  if b.validateMove p = false then
    (b, some ("Invalid move: (" ++ toString p.x ++ "," ++ toString p.y ++
      ") for " ++ turnString b.turn))
  else
    let b1 :=
      match b.turn with
      | .cat => { b with catPosition := p }
      | .catcher => b.setContent p true
    ({ b1 with turn := flipTurn b.turn }, none)

/-- Result record of getGameResult from board.ts. -/
structure GameResult where
  isOver : Bool
  winner : Option Turn
  reason : Option String
deriving DecidableEq

/-- getGameResult from board.ts: the cat-edge check runs first. -/
def Board.getGameResult (b : Board) : GameResult :=
  if b.catWinVerification then
    ⟨true, some .cat, some "Cat reached the edge"⟩
  else if b.catcherWinVerification then
    ⟨true, some .catcher, some "Cat is trapped"⟩
  else ⟨false, none, none⟩

/-- The character class of the JS regex backslash-s (whitespace stripped by
the Board constructor). -/
def isJsWhitespace (c : Char) : Bool :=
  decide (c = ' ' ∨ c = '\t' ∨ c = '\n' ∨ c = '\x0b' ∨ c = '\x0c' ∨ c = '\r' ∨ c = ' ' ∨ c = ' ' ∨ (' ' ≤ c ∧ c ≤ ' ') ∨ c = ' ' ∨ c = ' ' ∨ c = ' ' ∨ c = ' ' ∨ c = '　' ∨ c = '﻿')

/-- `board.replace(C, .)` in the Board constructor: a plain-string pattern
replaces only the first occurrence in JS. -/
def replaceFirstC : List Char → List Char
  | [] => []
  | c :: rest => if c = 'C' then '.' :: rest else c :: replaceFirstC rest

/-- The Board constructor from board.ts: strips whitespace, converts a
leading cat marker, derives the side from the square root of the length and
validates the 4k+1 shape.  The `(side - 1) % 4` test is on JS numbers, so
side 0 gives remainder -1 and fails; the Int subtraction models that. -/
def Board.construct (rawBoard : List Char) (catPosition : Position)
    (catUsername catcherUsername : String) : Except String Board :=
  let cleaned := replaceFirstC (rawBoard.filter (fun c => !(isJsWhitespace c)))
  let side := Nat.sqrt cleaned.length
  if side * side = cleaned.length then
    if ((side : Int) - 1) % 4 = 0 then
      .ok ⟨side, .cat, cleaned, catPosition, catUsername, catcherUsername⟩
    else .error "The side size must be 4*i+1, where i is an integer"
  else .error "Invalid board: length must be a perfect square"

/-! ### Report data model (board.ts) and the RLE board codec -/

/-- A JS number-valued dynamic property: reading an absent property gives
`undefined`, and arithmetic on `undefined` gives `NaN`. -/
inductive JsNum where
  | undef
  | nan
  | num (q : Rat)
deriving DecidableEq

/-- JS `v += 1` on a dynamic property holding a `JsNum`. -/
def JsNum.addOne : JsNum → JsNum
  | .undef => .nan
  | .nan => .nan
  | .num q => .num (q + 1)

/-- InitialState from board.ts. -/
structure InitialState where
  board : List Char
  catPosition : Position
  turn : Turn
deriving DecidableEq

/-- MoveReport from board.ts.  The `move` field is a class field initialised
to a default Position, hence always present; `error` is optional. -/
structure MoveReport where
  username : String
  turn : Turn
  time : Rat
  move : Position
  error : Option String
deriving DecidableEq

/-- MatchReport from board.ts. -/
structure MatchReport where
  moves : List MoveReport
  cat : String
  catcher : String
  catMoveScore : Rat
  catcherMoveScore : Rat
  catTimeScore : Rat
  catcherTimeScore : Rat
  initialState : InitialState
deriving DecidableEq

/-- UserScore from board.ts.  The class declares the eight constructor
fields; `catWins` and `catcherWins` are NOT declared but are written by
calculateUserScores and read by optimizeCompetitionReport, so they are
modelled as dynamic `JsNum` properties starting as `undefined`. -/
structure UserScore where
  username : String
  catMoveScore : Rat
  catcherMoveScore : Rat
  catTimeScore : Rat
  catcherTimeScore : Rat
  catScore : Rat
  catcherScore : Rat
  totalScore : Rat
  catWins : JsNum
  catcherWins : JsNum
deriving DecidableEq

/-- `new UserScore(username)` with all defaulted numeric fields. -/
def UserScore.init (username : String) : UserScore :=
  ⟨username, 0, 0, 0, 0, 0, 0, 0, .undef, .undef⟩

/-- CompetitionReport from board.ts.  The source field name `matches` is a
reserved word in Lean, hence the trailing underscore. -/
structure CompetitionReport where
  matches_ : List MatchReport
  highScores : List UserScore
deriving DecidableEq

/-- JS `/\d/` (ASCII decimal digit), used by decompressBoard. -/
def isDigitChar (c : Char) : Bool := '0' ≤ c ∧ c ≤ '9'

/-- The decimal numeral of a natural number, as the JS number-to-string
conversion produces it (most significant digit first, `0` for zero).
`Nat.digits` lists decimal digits least significant first. -/
def natDecimal (n : Nat) : List Char :=
  if n = 0 then ['0'] else ((Nat.digits 10 n).map Nat.digitChar).reverse

/-- One maximal run as emitted by compressBoard:
`count > 1 ? count + currentChar : currentChar`. -/
def emitRun (c : Char) (count : Nat) : List Char :=
  if count > 1 then natDecimal count ++ [c] else [c]

/-- The loop of compressBoard from generateReport.ts: `cur` is the current
run character and `count` its multiplicity so far. -/
def compressAux : List Char → Char → Nat → List Char
  | [], cur, count => emitRun cur count
  | c :: rest, cur, count =>
    if c = cur then compressAux rest cur (count + 1)
    else emitRun cur count ++ compressAux rest c 1

/-- compressBoard from generateReport.ts (run-length encoding). -/
def compressBoard : List Char → List Char
  | [] => []
  | c :: rest => compressAux rest c 1

/-- The loop of decompressBoard from CompetitionReport.tsx: `acc` is the
numeric value of the digit run read so far and `seen` records whether any
digit was read (JS keeps the digits in a string and applies parseInt, with
default 1 on the empty string; parseInt of a digit string is this fold). -/
def decompressAux : List Char → Nat → Bool → List Char
  | [], _, _ => []
  | c :: rest, acc, seen =>
    if isDigitChar c then decompressAux rest (acc * 10 + (c.toNat - 48)) true
    else List.replicate (if seen then acc else 1) c ++ decompressAux rest 0 false

/-- decompressBoard from CompetitionReport.tsx. -/
def decompressBoard (compressed : List Char) : List Char :=
  decompressAux compressed 0 false

/-! ### requestMove classification and the match loop (generateReport.ts) -/

/-- MoveResult from generateReport.ts: what requestMove resolves with. -/
structure MoveResult where
  move : Option Position
  time : Rat
  error : Option String
deriving DecidableEq

/-- ParseResult from generateReport.ts. -/
structure ParseResult where
  move : Position
  processingTime : Rat
deriving DecidableEq

/-- The error value delivered to the exec callback: an optional signal name
and a message. -/
structure ExecErr where
  signal : Option String
  message : String
deriving DecidableEq

/-- `error.message.includes(timeout-word)`: splitting on the needle yields
more than one part exactly when the needle occurs. -/
def msgHasTimeout (s : String) : Bool := (s.splitOn "timeout").length > 1

/-- The fixed per-move wall-clock budget from requestMove (milliseconds). -/
def moveTimeout : Rat := 2000

/-- The exec-callback classification logic of requestMove from
generateReport.ts (current copy, lines 137-167).  Inputs are the callback
arguments: the optional process error, the outcome of
parseMoveAndTimeFromOutput on the captured stdout (the parse is modelled by
its Except result), and the measured wall-clock time `executionTime`.
The late-exit check compares the wall-clock time against the timeout after
a successful parse. -/
def requestMoveClassify (error : Option ExecErr)
    (parsed : Except String ParseResult) (executionTime : Rat) : MoveResult :=
  match error with
  | some e =>
    if e.signal = some "SIGTERM" ∨ e.signal = some "SIGKILL" ∨ msgHasTimeout e.message then
      ⟨none, moveTimeout, some "Timeout exceeded"⟩
    else ⟨none, executionTime, some e.message⟩
  | none =>
    match parsed with
    | .error msg => ⟨none, executionTime, some ("Parse error: " ++ msg)⟩
    | .ok result =>
      if executionTime ≥ moveTimeout then ⟨none, moveTimeout, some "Timeout exceeded"⟩
      else ⟨some result.move, result.processingTime, none⟩

/-- JS truthiness of an optional string property (empty string is falsy). -/
def jsTruthyStr : Option String → Bool
  | none => false
  | some s => s ≠ ""

/-- `moveResult.error || defaultMsg` from runMatch. -/
def jsOrDefault (o : Option String) (d : String) : String :=
  match o with
  | some s => if s = "" then d else s
  | none => d

/-- The mutable per-match state of runMatch from generateReport.ts:
the board plus the fields of the report being accumulated. -/
structure MatchState where
  board : Board
  moveCount : Nat
  moves : List MoveReport
  catMoveScore : Rat
  catcherMoveScore : Rat
  catTimeScore : Rat
  catcherTimeScore : Rat
deriving DecidableEq

/-- The match-ending score split from runMatch: the side `loser` that
failed (or lost) receives moveCount, the opponent maxMoves - moveCount. -/
def failScores (maxMoves : Nat) (loser : Turn) (st : MatchState) : MatchState :=
  match loser with
  | .cat => { st with catcherMoveScore := (maxMoves : Rat) - st.moveCount,
                      catMoveScore := st.moveCount }
  | .catcher => { st with catMoveScore := (maxMoves : Rat) - st.moveCount,
                          catcherMoveScore := st.moveCount }

/-- Adds the time penalty of the current move to the accumulator of the
side to move (runMatch does this before the turn switches). -/
def accruePenalty (penalty : Rat → Rat) (time : Rat) (st : MatchState) : MatchState :=
  match st.board.turn with
  | .cat => { st with catTimeScore := st.catTimeScore + penalty time }
  | .catcher => { st with catcherTimeScore := st.catcherTimeScore + penalty time }

/-- One iteration body of the while loop of runMatch (generateReport.ts,
current copy, lines 270-335), after the game-over check: consume the
requestMove result `mr`, update the state, and report `some failingSide`
when the iteration breaks the loop.  Mirrors the source order exactly: on a
usable move the time penalty is accrued BEFORE board.move runs, so a move
rejected by the board keeps the penalty. -/
def matchStep (penalty : Rat → Rat) (mr : MoveResult)
    (catU catcherU : String) (maxMoves : Nat) (st : MatchState) :
    MatchState × Option Turn :=
  let turn0 := st.board.turn
  let currentU := match turn0 with | .cat => catU | .catcher => catcherU
  let base : MoveReport :=
    ⟨currentU, turn0, mr.time, mr.move.getD ⟨0, 0⟩, none⟩
  match mr.move with
  | none =>
    let rep := { base with error := some (jsOrDefault mr.error "Invalid move") }
    (failScores maxMoves turn0 { st with moves := st.moves ++ [rep] }, some turn0)
  | some mv =>
    if jsTruthyStr mr.error then
      let rep := { base with error := some (jsOrDefault mr.error "Invalid move") }
      (failScores maxMoves turn0 { st with moves := st.moves ++ [rep] }, some turn0)
    else
      let st1 := accruePenalty penalty mr.time st
      match st1.board.move mv with
      | (b2, none) =>
        ({ st1 with board := b2, moveCount := st1.moveCount + 1,
                    moves := st1.moves ++ [base] }, none)
      | (b2, some msg) =>
        let rep := { base with error := some msg }
        (failScores maxMoves turn0
          { st1 with board := b2, moves := st1.moves ++ [rep] }, some turn0)

/-- How the while loop of runMatch terminated. -/
inductive LoopExit where
  | gameOver
  | failedBy (t : Turn)
  | capped
deriving DecidableEq

/-- The while loop of runMatch.  The request stream is indexed by the
current moveCount (each iteration that does not break increments it, and
a breaking iteration is the last).  The fuel equals
maxMoves - moveCount, so fuel 0 is exactly the loop condition failing. -/
def runLoop (penalty : Rat → Rat) (requests : Nat → MoveResult)
    (catU catcherU : String) (maxMoves : Nat) :
    Nat → MatchState → MatchState × LoopExit
  | 0, st => (st, .capped)
  | fuel + 1, st =>
    if (st.board.getGameResult).isOver then (st, .gameOver)
    else
      match matchStep penalty (requests st.moveCount) catU catcherU maxMoves st with
      | (st2, some t) => (st2, .failedBy t)
      | (st2, none) => runLoop penalty requests catU catcherU maxMoves fuel st2

/-- The final-scoring block of runMatch: if the game is over and no break
path already set the move scores, split them by the winner. -/
def finalScoring (maxMoves : Nat) (st : MatchState) : MatchState :=
  let r := st.board.getGameResult
  if r.isOver = true ∧ st.catMoveScore = 0 ∧ st.catcherMoveScore = 0 then
    if r.winner = some .cat then
      { st with catMoveScore := (maxMoves : Rat) - st.moveCount,
                catcherMoveScore := st.moveCount }
    else
      { st with catcherMoveScore := (maxMoves : Rat) - st.moveCount,
                catMoveScore := st.moveCount }
  else st

/-- runMatch from generateReport.ts (current copy, lines 246-352).
`requests` models the sequence of requestMove resolutions for this match
(the external agent processes).  Returns the MatchReport together with the
final loop state and the way the loop exited. -/
def runMatch (penalty : Rat → Rat) (requests : Nat → MoveResult)
    (catU catcherU : String) (initialState : List Char) :
    Except String (MatchReport × MatchState × LoopExit) := do
  let b ← Board.construct initialState ⟨0, 0⟩ catU catcherU
  let maxMoves := b.side * b.side
  let st0 : MatchState := ⟨b, 0, [], 0, 0, 0, 0⟩
  let (st1, exit) := runLoop penalty requests catU catcherU maxMoves maxMoves st0
  let fin := finalScoring maxMoves st1
  .ok (⟨fin.moves, catU, catcherU, fin.catMoveScore, fin.catcherMoveScore,
        fin.catTimeScore, fin.catcherTimeScore, ⟨initialState, ⟨0, 0⟩, b.turn⟩⟩,
       fin, exit)

/-! ### Score aggregation and the competition driver (generateReport.ts) -/

/-- First-occurrence deduplication, as `new Set(array)` iterated in order
(also the key order of a JS Map filled by repeated `set`). -/
def jsSetDedup (l : List String) : List String :=
  l.foldl (fun acc x => if x ∈ acc then acc else acc ++ [x]) []

/-- `new Map` filled with `new UserScore(username)` per user, in order. -/
def initUserScores (users : List String) : List UserScore :=
  (jsSetDedup users).map UserScore.init

/-- Mutating one user entry of the score map.  A username missing from the
map makes `userScores.get(name)!` yield `undefined` and the following
property access throw; the Except error models that TypeError. -/
def updateUser (scores : List UserScore) (name : String)
    (f : UserScore → UserScore) : Except String (List UserScore) :=
  if scores.any (fun s => s.username = name) then
    .ok (scores.map (fun s => if s.username = name then f s else s))
  else .error "TypeError: cannot read properties of undefined"

/-- The per-match accumulation step of calculateUserScores
(generateReport.ts, current copy, lines 363-388): normalise the move
scores by the board length (441 when the stored initial board is the empty
string, which is falsy), add them and the time penalties to the two
participants, and bump a win counter on a strict move-score winner. -/
def applyMatchScores (scores : List UserScore) (m : MatchReport) :
    Except String (List UserScore) := do
  let maxScore : Rat := if m.initialState.board = [] then 441 else m.initialState.board.length
  let s1 ← updateUser scores m.cat (fun s =>
    { s with catMoveScore := s.catMoveScore + m.catMoveScore / maxScore,
             catTimeScore := s.catTimeScore + m.catTimeScore })
  let s2 ← updateUser s1 m.catcher (fun s =>
    { s with catcherMoveScore := s.catcherMoveScore + m.catcherMoveScore / maxScore,
             catcherTimeScore := s.catcherTimeScore + m.catcherTimeScore })
  if m.catMoveScore > m.catcherMoveScore then
    updateUser s2 m.cat (fun s => { s with catWins := s.catWins.addOne })
  else if m.catcherMoveScore > m.catMoveScore then
    updateUser s2 m.catcher (fun s => { s with catcherWins := s.catcherWins.addOne })
  else .ok s2

/-- The derived-score pass of calculateUserScores. -/
def deriveScores (s : UserScore) : UserScore :=
  let cs := s.catMoveScore - s.catTimeScore
  let chs := s.catcherMoveScore - s.catcherTimeScore
  { s with catScore := cs, catcherScore := chs, totalScore := cs + chs }

/-- Stable descending insertion by totalScore: the unique stable descending
order, which is what the JS stable `sort((a, b) => b.totalScore - a.totalScore)`
produces. -/
def insertByTotalDesc (x : UserScore) : List UserScore → List UserScore
  | [] => [x]
  | y :: ys => if x.totalScore ≥ y.totalScore then x :: y :: ys
               else y :: insertByTotalDesc x ys

/-- Stable descending sort by totalScore. -/
def sortByTotalDesc : List UserScore → List UserScore
  | [] => []
  | x :: xs => insertByTotalDesc x (sortByTotalDesc xs)

/-- calculateUserScores from generateReport.ts (current copy, lines
354-399). -/
def calculateUserScores (users : List String) (matchReports : List MatchReport) :
    Except String (List UserScore) := do
  let acc ← matchReports.foldlM applyMatchScores (initUserScores users)
  .ok (sortByTotalDesc (acc.map deriveScores))

/-- The competition loop of main (generateReport.ts, current copy, lines
544-562): every ordered pair of distinct users plays one match per initial
board; then user scores are folded and the report assembled.  `users` is
the post-build-filter participant list and `boards` the output of the
random board generator; `requests` gives the requestMove resolution stream
per (initial board, cat, catcher).  A thrown error anywhere propagates and
aborts, as in the source. -/
def runCompetition (penalty : Rat → Rat) (users : List String)
    (boards : List (List Char))
    (requests : List Char → String → String → Nat → MoveResult) :
    Except String CompetitionReport := do
  let ms ← boards.foldlM (fun acc ini =>
    users.foldlM (fun acc2 cat =>
      users.foldlM (fun acc3 catcher =>
        if cat = catcher then .ok acc3
        else do
          let r ← runMatch penalty (requests ini cat catcher) cat catcher ini
          .ok (acc3 ++ [r.1])) acc2) acc) []
  let hs ← calculateUserScores users ms
  .ok ⟨ms, hs⟩

/-! ### Report compaction (generateReport.ts) and decompaction
(CompetitionReport.tsx) -/

/-- Turn encoded as 0 (cat) / 1 (catcher). -/
def turnCode : Turn → Nat
  | .cat => 0
  | .catcher => 1

/-- The decoder side: `t === 0 ? Turn.Cat : Turn.Catcher`. -/
def decodeTurn (n : Nat) : Turn :=
  if n = 0 then .cat else .catcher

/-- `userMap.get(name)`: the map sends each entry of the deduplicated
username list to its index, and a missing key reads as `undefined`. -/
def userMapGet (allUsernames : List String) (name : String) : Option Nat :=
  if name ∈ allUsernames then some (allUsernames.indexOf name) else none

/-- `users[i]` on the decoder side: an out-of-range or `undefined` index
yields JS `undefined`; the sentinel string models its appearance where a
username is expected. -/
def jsAtStr (l : List String) (o : Option Nat) : String :=
  match o with
  | some i => l.getD i "undefined"
  | none => "undefined"

/-- The conditional spread `...(cond && { key: s })` over a string-valued
optional field: an absent or empty (falsy) string leaves the key absent. -/
def truthyFilter (o : Option String) : Option String :=
  match o with
  | some s => if s = "" then none else some s
  | none => none

/-- Compacted MoveReport (optimizeCompetitionReport).  The `mv` field is
spread-guarded in the source, but a MoveReport class instance always holds
a Position object (truthy), so it is always emitted. -/
structure OptMove where
  u : Option Nat
  t : Nat
  tm : Rat
  mv : Position
  e : Option String
deriving DecidableEq

/-- Compacted InitialState. -/
structure OptInit where
  b : List Char
  cp : Position
  t : Nat
deriving DecidableEq

/-- Compacted MatchReport. -/
structure OptMatch where
  m : List OptMove
  c : Option Nat
  ch : Option Nat
  cms : Rat
  chs : Rat
  cts : Rat
  chts : Rat
  init : OptInit
deriving DecidableEq

/-- Compacted UserScore: the win counters are emitted from the dynamic
`catWins` / `catcherWins` properties. -/
structure OptScore where
  u : Option Nat
  cms : Rat
  chs : Rat
  cts : Rat
  chts : Rat
  cs : Rat
  chs2 : Rat
  ts : Rat
  cw : JsNum
  chw : JsNum
deriving DecidableEq

/-- Compacted CompetitionReport (field `matches` is reserved in Lean). -/
structure OptReport where
  users : List String
  matches_ : List OptMatch
  highScores : List OptScore
deriving DecidableEq

/-- The username-occurrence list that optimizeCompetitionReport
deduplicates: every cat, every catcher, every mover. -/
def participants (r : CompetitionReport) : List String :=
  r.matches_.map (fun m => m.cat) ++ r.matches_.map (fun m => m.catcher) ++
  r.matches_.flatMap (fun m => m.moves.map (fun mv => mv.username))

/-- optimizeCompetitionReport from generateReport.ts (current copy, lines
430-484). -/
def optimizeCompetitionReport (r : CompetitionReport) : OptReport :=
  let allUsernames := jsSetDedup (participants r)
  { users := allUsernames,
    matches_ := r.matches_.map (fun mt =>
      { m := mt.moves.map (fun mv =>
          { u := userMapGet allUsernames mv.username,
            t := turnCode mv.turn,
            tm := mv.time,
            mv := mv.move,
            e := truthyFilter mv.error }),
        c := userMapGet allUsernames mt.cat,
        ch := userMapGet allUsernames mt.catcher,
        cms := mt.catMoveScore,
        chs := mt.catcherMoveScore,
        cts := mt.catTimeScore,
        chts := mt.catcherTimeScore,
        init := { b := compressBoard mt.initialState.board,
                  cp := mt.initialState.catPosition,
                  t := turnCode mt.initialState.turn } }),
    highScores := r.highScores.map (fun s =>
      { u := userMapGet allUsernames s.username,
        cms := s.catMoveScore, chs := s.catcherMoveScore,
        cts := s.catTimeScore, chts := s.catcherTimeScore,
        cs := s.catScore, chs2 := s.catcherScore, ts := s.totalScore,
        cw := s.catWins, chw := s.catcherWins }) }

/-- deoptimizeCompetitionReport from CompetitionReport.tsx (lines 50-99).
The object literals it builds for the high scores carry no `catWins` or
`catcherWins` keys, so those properties read as `undefined`.  (The
module-level result cache only affects repeated calls and is not part of
the transform.) -/
def deoptimizeCompetitionReport (o : OptReport) : CompetitionReport :=
  { matches_ := o.matches_.map (fun mt =>
      { moves := mt.m.map (fun mv =>
          { username := jsAtStr o.users mv.u,
            turn := decodeTurn mv.t,
            time := mv.tm,
            move := mv.mv,
            error := truthyFilter mv.e }),
        cat := jsAtStr o.users mt.c,
        catcher := jsAtStr o.users mt.ch,
        catMoveScore := mt.cms,
        catcherMoveScore := mt.chs,
        catTimeScore := mt.cts,
        catcherTimeScore := mt.chts,
        initialState := { board := decompressBoard mt.init.b,
                          catPosition := mt.init.cp,
                          turn := decodeTurn mt.init.t } }),
    highScores := o.highScores.map (fun s =>
      { username := jsAtStr o.users s.u,
        catMoveScore := s.cms, catcherMoveScore := s.chs,
        catTimeScore := s.cts, catcherTimeScore := s.chts,
        catScore := s.cs, catcherScore := s.chs2, totalScore := s.ts,
        catWins := .undef, catcherWins := .undef }) }

/-- Erasing the win counters of a UserScore to the absent-property state:
what a decompacted high score retains of them. -/
def eraseWins (s : UserScore) : UserScore :=
  { s with catWins := .undef, catcherWins := .undef }

/-! ### Concrete instances used by witnesses and counterexamples -/

/-- The recorded move score of a side in a MatchReport. -/
def MatchReport.moveScoreOf (r : MatchReport) : Turn → Rat
  | .cat => r.catMoveScore
  | .catcher => r.catcherMoveScore

/-- A concrete instance of the swappable time-penalty parameter (spec
section 9); its only role in the concrete runs below is to be nonzero at
the sample elapsed time. -/
def demoPenalty : Rat → Rat := fun t => t / 500000000

/-- An all-empty 5x5 layout (25 cells). -/
def demoBoard5 : List Char := List.replicate 25 '.'

/-- The 5x5 empty board with the cat at the centre, cat to move. -/
def demoBoardObj : Board := ⟨5, .cat, demoBoard5, ⟨0, 0⟩, "a", "b"⟩

/-- Same board with the catcher to move. -/
def demoCatcherBoard : Board := ⟨5, .catcher, demoBoard5, ⟨0, 0⟩, "a", "b"⟩

/-- The 5x5 board with the cat on the east edge. -/
def demoEdgeBoard : Board := ⟨5, .cat, demoBoard5, ⟨2, 0⟩, "a", "b"⟩

/-- A fresh loop state on the demo board. -/
def demoState : MatchState := ⟨demoBoardObj, 0, [], 0, 0, 0, 0⟩

/-- A requestMove resolution carrying a well-formed but illegal move:
(2,2) is not a neighbour of the centre.  Elapsed time 1000000 (a
microsecond value whose cube-root penalty is the rational 1/500, matched
by demoPenalty). -/
def demoInvalidMove : MoveResult := ⟨some ⟨2, 2⟩, 1000000, none⟩

/-- Agents that always time out: every requestMove resolves with the
timeout classification. -/
def demoRequests : List Char → String → String → Nat → MoveResult :=
  fun _ _ _ _ => ⟨none, 2000, some "Timeout exceeded"⟩

/-- A two-user competition on one 5x5 board where every move request times
out, run through the full simulator pipeline. -/
def demoReportE : Except String CompetitionReport :=
  runCompetition demoPenalty ["a", "b"] [demoBoard5] demoRequests

/-- The CompetitionReport the demo competition produces. -/
def demoReport : CompetitionReport := demoReportE.toOption.getD ⟨[], []⟩

/-- One demo match run on its own (cat a versus catcher b, instant cat
timeout, so the match fails at move count 0). -/
def demoRunMatch : Except String (MatchReport × MatchState × LoopExit) :=
  runMatch demoPenalty (fun _ => ⟨none, 2000, some "Timeout exceeded"⟩) "a" "b" demoBoard5

/-- The result triple of the demo match. -/
def demoFailTriple : MatchReport × MatchState × LoopExit :=
  demoRunMatch.toOption.getD ⟨⟨[], "", "", 0, 0, 0, 0, ⟨[], ⟨0, 0⟩, .cat⟩⟩, demoState, .capped⟩

/-! ### Lemmas: run-length-encoding round trip -/

theorem decompressAux_digit (c : Char) (h : isDigitChar c = true)
    (rest : List Char) (acc : Nat) (seen : Bool) :
    decompressAux (c :: rest) acc seen
      = decompressAux rest (acc * 10 + (c.toNat - 48)) true := by
  simp [decompressAux, h]

theorem decompressAux_nondigit (c : Char) (h : isDigitChar c = false)
    (rest : List Char) (acc : Nat) (seen : Bool) :
    decompressAux (c :: rest) acc seen
      = List.replicate (if seen then acc else 1) c ++ decompressAux rest 0 false := by
  simp [decompressAux, h]

theorem decompressAux_digits_run :
    ∀ (d : Char) (ds : List Char), (∀ x ∈ d :: ds, isDigitChar x = true) →
    ∀ (t : List Char) (acc : Nat) (seen : Bool),
    decompressAux (d :: ds ++ t) acc seen
      = decompressAux t ((d :: ds).foldl (fun a c => a * 10 + (c.toNat - 48)) acc) true
  | d, [], hall, t, acc, seen => by
    simp only [List.cons_append, List.nil_append]
    rw [decompressAux_digit d (hall d (List.mem_cons_self d []))]
    rfl
  | d, e :: es, hall, t, acc, seen => by
    rw [List.cons_append, decompressAux_digit d (hall d (List.mem_cons_self d (e :: es)))]
    exact decompressAux_digits_run e es
      (fun x hx => hall x (List.mem_cons_of_mem d hx)) t _ true

theorem digitChar_spec (d : Nat) (h : d < 10) :
    isDigitChar (Nat.digitChar d) = true ∧ (Nat.digitChar d).toNat - 48 = d := by
  interval_cases d <;> exact ⟨by decide, by decide⟩

theorem foldr_val_eq_ofDigits :
    ∀ ds : List Nat, (∀ d ∈ ds, d < 10) →
    List.foldr (fun d y => y * 10 + ((Nat.digitChar d).toNat - 48)) 0 ds
      = Nat.ofDigits 10 ds
  | [], _ => by simp [Nat.ofDigits]
  | d :: ds, hall => by
    have hd := (digitChar_spec d (hall d (List.mem_cons_self d ds))).2
    have ih := foldr_val_eq_ofDigits ds (fun x hx => hall x (List.mem_cons_of_mem d hx))
    simp only [List.foldr_cons, ih, hd, Nat.ofDigits_cons]
    ring

theorem natDecimal_ne_nil (n : Nat) : natDecimal n ≠ [] := by
  unfold natDecimal
  by_cases h : n = 0
  · simp [h]
  · have : Nat.digits 10 n ≠ [] := Nat.digits_ne_nil_iff_ne_zero.mpr h
    simp [h, this]

theorem natDecimal_digits (n : Nat) : ∀ c ∈ natDecimal n, isDigitChar c = true := by
  intro c hc
  unfold natDecimal at hc
  by_cases h : n = 0
  · simp [h] at hc
    subst hc; decide
  · simp only [h, if_neg, ite_false, List.mem_reverse, List.mem_map] at hc
    obtain ⟨d, hd, rfl⟩ := hc
    exact (digitChar_spec d (Nat.digits_lt_base (by norm_num) hd)).1

theorem natDecimal_val (n : Nat) :
    (natDecimal n).foldl (fun a c => a * 10 + (c.toNat - 48)) 0 = n := by
  unfold natDecimal
  by_cases h : n = 0
  · simp [h]
  · simp only [h, ite_false]
    rw [List.foldl_reverse, List.foldr_map]
    have : List.foldr (fun x y => y * 10 + ((Nat.digitChar x).toNat - 48)) 0
        (Nat.digits 10 n) = Nat.ofDigits 10 (Nat.digits 10 n) :=
      foldr_val_eq_ofDigits _ (fun d hd => Nat.digits_lt_base (by norm_num) hd)
    rw [this, Nat.ofDigits_digits]

theorem decompressAux_emitRun (c : Char) (hc : isDigitChar c = false)
    (count : Nat) (hcount : 1 ≤ count) (t : List Char) :
    decompressAux (emitRun c count ++ t) 0 false
      = List.replicate count c ++ decompressAux t 0 false := by
  unfold emitRun
  by_cases h : count > 1
  · simp only [if_pos h]
    obtain ⟨d, ds, hds⟩ := List.exists_cons_of_ne_nil (natDecimal_ne_nil count)
    have hall : ∀ x ∈ d :: ds, isDigitChar x = true := by
      rw [← hds]; exact natDecimal_digits count
    rw [List.append_assoc, hds, decompressAux_digits_run d ds hall, ← hds,
      natDecimal_val, List.singleton_append, decompressAux_nondigit c hc]
    simp
  · have hone : count = 1 := le_antisymm (not_lt.mp h) hcount
    subst hone
    simp only [if_neg h, List.singleton_append]
    rw [decompressAux_nondigit c hc]
    simp

theorem rle_roundtrip_aux :
    ∀ (rest : List Char) (cur : Char) (count : Nat),
    isDigitChar cur = false → 1 ≤ count → (∀ c ∈ rest, isDigitChar c = false) →
    decompressAux (compressAux rest cur count) 0 false
      = List.replicate count cur ++ rest
  | [], cur, count, hcur, hcount, _ => by
    show decompressAux (emitRun cur count) 0 false = _
    have h := decompressAux_emitRun cur hcur count hcount []
    simpa [decompressAux] using h
  | c :: rest, cur, count, hcur, hcount, hall => by
    show decompressAux (if c = cur then compressAux rest cur (count + 1)
      else emitRun cur count ++ compressAux rest c 1) 0 false = _
    by_cases h : c = cur
    · subst h
      rw [if_pos rfl, rle_roundtrip_aux rest c (count + 1) hcur (by omega)
        (fun x hx => hall x (List.mem_cons_of_mem c hx))]
      rw [List.replicate_succ']
      simp
    · have hcd : isDigitChar c = false := hall c (List.mem_cons_self c rest)
      rw [if_neg h, decompressAux_emitRun cur hcur count hcount,
        rle_roundtrip_aux rest c 1 hcd le_rfl
          (fun x hx => hall x (List.mem_cons_of_mem c hx))]
      simp

/-- Round trip of the board RLE codec on digit-free strings (in particular
on the cell alphabet). -/
theorem rle_roundtrip (s : List Char) (h : ∀ c ∈ s, isDigitChar c = false) :
    decompressBoard (compressBoard s) = s := by
  cases s with
  | nil => rfl
  | cons c rest =>
    show decompressAux (compressAux rest c 1) 0 false = c :: rest
    rw [rle_roundtrip_aux rest c 1 (h c (List.mem_cons_self c rest)) le_rfl
      (fun x hx => h x (List.mem_cons_of_mem c hx))]
    rfl

/-- The two cell symbols are not decimal digits. -/
theorem cellAlphabet_not_digit (s : List Char) (h : ∀ c ∈ s, c = '.' ∨ c = '#') :
    ∀ c ∈ s, isDigitChar c = false := by
  intro c hc
  rcases h c hc with rfl | rfl <;> decide

/-! ### Lemmas: report compaction round trip -/

theorem mem_foldl_dedup (l : List String) (acc : List String) (x : String) :
    x ∈ l.foldl (fun a y => if y ∈ a then a else a ++ [y]) acc ↔ x ∈ acc ∨ x ∈ l := by
  induction l generalizing acc with
  | nil => simp
  | cons y ys ih =>
    simp only [List.foldl_cons]
    by_cases h : y ∈ acc
    · rw [if_pos h, ih]
      simp only [List.mem_cons]
      constructor
      · rintro (hx | hx)
        · exact Or.inl hx
        · exact Or.inr (Or.inr hx)
      · rintro (hx | rfl | hx)
        · exact Or.inl hx
        · exact Or.inl h
        · exact Or.inr hx
    · rw [if_neg h, ih]
      simp only [List.mem_append, List.mem_singleton, List.mem_cons]
      tauto

theorem mem_jsSetDedup (l : List String) (x : String) :
    x ∈ jsSetDedup l ↔ x ∈ l := by
  unfold jsSetDedup
  rw [mem_foldl_dedup]
  simp

theorem jsAtStr_userMapGet (l : List String) (x : String) (h : x ∈ l) :
    jsAtStr l (userMapGet l x) = x := by
  unfold userMapGet jsAtStr
  rw [if_pos h]
  have hlt : l.indexOf x < l.length := List.indexOf_lt_length.mpr h
  show l.getD (l.indexOf x) "undefined" = x
  rw [List.getD_eq_getElem _ _ hlt]
  exact List.getElem_indexOf hlt

theorem map_eq_self_of_forall {α : Type} (l : List α) (f : α → α)
    (h : ∀ x ∈ l, f x = x) : l.map f = l := by
  induction l with
  | nil => rfl
  | cons x xs ih =>
    simp only [List.map_cons, h x (List.mem_cons_self x xs)]
    rw [ih (fun y hy => h y (List.mem_cons_of_mem x hy))]

theorem truthyFilter_of_ne_empty (o : Option String) (h : o ≠ some "") :
    truthyFilter o = o := by
  cases o with
  | none => rfl
  | some s =>
    have hs : ¬(s = "") := fun hh => h (by rw [hh])
    simp [truthyFilter, hs]

theorem decodeTurn_turnCode (t : Turn) : decodeTurn (turnCode t) = t := by
  cases t <;> rfl

theorem mem_participants_cat (r : CompetitionReport) (mt : MatchReport)
    (h : mt ∈ r.matches_) : mt.cat ∈ participants r := by
  unfold participants
  exact List.mem_append_left _ (List.mem_append_left _ (List.mem_map_of_mem _ h))

theorem mem_participants_catcher (r : CompetitionReport) (mt : MatchReport)
    (h : mt ∈ r.matches_) : mt.catcher ∈ participants r := by
  unfold participants
  exact List.mem_append_left _ (List.mem_append_right _ (List.mem_map_of_mem _ h))

theorem mem_participants_mover (r : CompetitionReport) (mt : MatchReport)
    (mv : MoveReport) (hm : mt ∈ r.matches_) (hv : mv ∈ mt.moves) :
    mv.username ∈ participants r := by
  unfold participants
  refine List.mem_append_right _ (List.mem_flatMap.mpr ⟨mt, hm, ?_⟩)
  exact List.mem_map_of_mem _ hv

/-- Decompaction after compaction restores every MatchReport exactly and
every UserScore except its win-counter properties, which come back absent. -/
theorem deopt_opt_report (r : CompetitionReport)
    (hboard : ∀ mt ∈ r.matches_, ∀ c ∈ mt.initialState.board, c = '.' ∨ c = '#')
    (herr : ∀ mt ∈ r.matches_, ∀ mv ∈ mt.moves, mv.error ≠ some "")
    (hhs : ∀ s ∈ r.highScores, s.username ∈ participants r) :
    deoptimizeCompetitionReport (optimizeCompetitionReport r)
      = ⟨r.matches_, r.highScores.map eraseWins⟩ := by
  have hmemP : ∀ x, x ∈ participants r → x ∈ jsSetDedup (participants r) :=
    fun x hx => (mem_jsSetDedup _ x).mpr hx
  unfold deoptimizeCompetitionReport optimizeCompetitionReport
  simp only [List.map_map]
  congr 1
  · apply map_eq_self_of_forall
    intro mt hmt
    simp only [Function.comp_apply]
    obtain ⟨moves, cat, catcher, cms, chs, cts, chts, init⟩ := mt
    simp only [MatchReport.mk.injEq]
    refine ⟨?_, ?_, ?_, trivial, trivial, trivial, trivial, ?_⟩
    · rw [List.map_map]
      apply map_eq_self_of_forall
      intro mv hmv
      simp only [Function.comp_apply]
      obtain ⟨mun, mtn, mtm, mmv, mer⟩ := mv
      simp only [MoveReport.mk.injEq]
      refine ⟨?_, decodeTurn_turnCode _, trivial, trivial, ?_⟩
      · exact jsAtStr_userMapGet _ _
          (hmemP _ (mem_participants_mover r _ _ hmt hmv))
      · rw [truthyFilter_of_ne_empty _ (herr _ hmt _ hmv)]
        exact truthyFilter_of_ne_empty _ (herr _ hmt _ hmv)
    · exact jsAtStr_userMapGet _ _ (hmemP _ (mem_participants_cat r _ hmt))
    · exact jsAtStr_userMapGet _ _ (hmemP _ (mem_participants_catcher r _ hmt))
    · obtain ⟨ib, icp, it⟩ := init
      simp only [InitialState.mk.injEq]
      refine ⟨?_, trivial, decodeTurn_turnCode _⟩
      exact rle_roundtrip _ (cellAlphabet_not_digit _ (hboard _ hmt))
  · apply List.map_congr_left
    intro s hs
    simp only [Function.comp_apply]
    obtain ⟨sun, a1, a2, a3, a4, a5, a6, a7, w1, w2⟩ := s
    simp only [UserScore.mk.injEq, eraseWins]
    refine ⟨?_, trivial, trivial, trivial, trivial, trivial, trivial, trivial, trivial, trivial⟩
    exact jsAtStr_userMapGet _ _ (hmemP _ (hhs _ hs))

/-! ### Lemmas: Board.move and the match loop -/

theorem Board.move_side (b : Board) (p : Position) : (b.move p).1.side = b.side := by
  unfold Board.move
  by_cases h : b.validateMove p = false
  · rw [if_pos h]
  · rw [if_neg h]
    cases b.turn
    · rfl
    · simp only [Board.setContent]
      split <;> rfl

theorem failScores_proj (maxMoves : Nat) (loser : Turn) (st : MatchState) :
    (failScores maxMoves loser st).board = st.board ∧
    (failScores maxMoves loser st).moveCount = st.moveCount ∧
    (failScores maxMoves loser st).catTimeScore = st.catTimeScore ∧
    (failScores maxMoves loser st).catcherTimeScore = st.catcherTimeScore := by
  cases loser <;> exact ⟨rfl, rfl, rfl, rfl⟩

theorem failScores_split (maxMoves : Nat) (loser : Turn) (st : MatchState) :
    (loser = .cat → (failScores maxMoves loser st).catcherMoveScore
        = (maxMoves : Rat) - st.moveCount ∧
      (failScores maxMoves loser st).catMoveScore = st.moveCount) ∧
    (loser = .catcher → (failScores maxMoves loser st).catMoveScore
        = (maxMoves : Rat) - st.moveCount ∧
      (failScores maxMoves loser st).catcherMoveScore = st.moveCount) := by
  cases loser with
  | cat => exact ⟨fun _ => ⟨rfl, rfl⟩, fun h => (nomatch h)⟩
  | catcher => exact ⟨fun h => (nomatch h), fun _ => ⟨rfl, rfl⟩⟩

theorem accruePenalty_proj (penalty : Rat → Rat) (time : Rat) (st : MatchState) :
    (accruePenalty penalty time st).board = st.board ∧
    (accruePenalty penalty time st).moveCount = st.moveCount ∧
    (accruePenalty penalty time st).catMoveScore = st.catMoveScore ∧
    (accruePenalty penalty time st).catcherMoveScore = st.catcherMoveScore := by
  unfold accruePenalty
  cases st.board.turn <;> exact ⟨rfl, rfl, rfl, rfl⟩

theorem matchStep_continue (penalty : Rat → Rat) (mr : MoveResult)
    (catU catcherU : String) (maxMoves : Nat) (st st2 : MatchState)
    (h : matchStep penalty mr catU catcherU maxMoves st = (st2, none)) :
    st2.moveCount = st.moveCount + 1 ∧ st2.catMoveScore = st.catMoveScore ∧
    st2.catcherMoveScore = st.catcherMoveScore ∧ st2.board.side = st.board.side := by
  have h1 := congrArg Prod.fst h
  have h2 := congrArg Prod.snd h
  unfold matchStep at h1 h2
  cases hm : mr.move with
  | none => simp [hm] at h2
  | some mv =>
    by_cases he : jsTruthyStr mr.error = true
    · simp [hm, he] at h2
    · rcases hbm : (accruePenalty penalty mr.time st).board.move mv with ⟨b2, e⟩
      have hap := accruePenalty_proj penalty mr.time st
      cases e with
      | some msg => simp [hm, he, hbm] at h2
      | none =>
        simp only [hm, he, hbm, Bool.false_eq_true, if_false] at h1
        rw [← h1]
        refine ⟨?_, ?_, ?_, ?_⟩
        · show (accruePenalty penalty mr.time st).moveCount + 1 = st.moveCount + 1
          rw [hap.2.1]
        · exact hap.2.2.1
        · exact hap.2.2.2
        · show b2.side = st.board.side
          have hs := Board.move_side (accruePenalty penalty mr.time st).board mv
          rw [hbm] at hs
          rw [hs, hap.1]

theorem matchStep_fail (penalty : Rat → Rat) (mr : MoveResult)
    (catU catcherU : String) (maxMoves : Nat) (st st2 : MatchState) (t : Turn)
    (h : matchStep penalty mr catU catcherU maxMoves st = (st2, some t)) :
    t = st.board.turn ∧ st2.moveCount = st.moveCount ∧
    st2.board.side = st.board.side ∧
    (t = .cat → st2.catcherMoveScore = (maxMoves : Rat) - st.moveCount ∧
      st2.catMoveScore = st.moveCount) ∧
    (t = .catcher → st2.catMoveScore = (maxMoves : Rat) - st.moveCount ∧
      st2.catcherMoveScore = st.moveCount) := by
  have h1 := congrArg Prod.fst h
  have h2 := congrArg Prod.snd h
  unfold matchStep at h1 h2
  cases hm : mr.move with
  | none =>
    simp only [hm, Option.some.injEq] at h1 h2
    subst h2
    rw [← h1]
    refine ⟨rfl, (failScores_proj _ _ _).2.1, ?_, ?_, ?_⟩
    · rcases htn : st.board.turn <;> rfl
    · intro ht
      rw [ht]
      exact ⟨rfl, rfl⟩
    · intro ht
      rw [ht]
      exact ⟨rfl, rfl⟩
  | some mv =>
    by_cases he : jsTruthyStr mr.error = true
    · simp only [hm, he, if_true, Option.some.injEq] at h1 h2
      subst h2
      rw [← h1]
      refine ⟨rfl, (failScores_proj _ _ _).2.1, ?_, ?_, ?_⟩
      · rcases htn : st.board.turn <;> rfl
      · intro ht
        rw [ht]
        exact ⟨rfl, rfl⟩
      · intro ht
        rw [ht]
        exact ⟨rfl, rfl⟩
    · rcases hbm : (accruePenalty penalty mr.time st).board.move mv with ⟨b2, e⟩
      have hap := accruePenalty_proj penalty mr.time st
      cases e with
      | none => simp [hm, he, hbm] at h2
      | some msg =>
        simp only [hm, he, hbm, Bool.false_eq_true, if_false,
          Option.some.injEq] at h1 h2
        subst h2
        rw [← h1]
        have hside : b2.side = st.board.side := by
          have hs := Board.move_side (accruePenalty penalty mr.time st).board mv
          rw [hbm] at hs
          rw [hs, hap.1]
        refine ⟨rfl, ?_, ?_, ?_, ?_⟩
        · rw [(failScores_proj _ _ _).2.1]
          exact hap.2.1
        · rcases htn : st.board.turn <;> exact hside
        · intro ht
          rw [ht]
          constructor
          · show (maxMoves : Rat) - (accruePenalty penalty mr.time st).moveCount
              = (maxMoves : Rat) - st.moveCount
            rw [hap.2.1]
          · show ((accruePenalty penalty mr.time st).moveCount : Rat)
              = (st.moveCount : Rat)
            rw [hap.2.1]
        · intro ht
          rw [ht]
          constructor
          · show (maxMoves : Rat) - (accruePenalty penalty mr.time st).moveCount
              = (maxMoves : Rat) - st.moveCount
            rw [hap.2.1]
          · show ((accruePenalty penalty mr.time st).moveCount : Rat)
              = (st.moveCount : Rat)
            rw [hap.2.1]

theorem runLoop_spec (penalty : Rat → Rat) (requests : Nat → MoveResult)
    (catU catcherU : String) (maxMoves : Nat) (fuel : Nat) :
    ∀ (st st2 : MatchState) (exit : LoopExit),
    runLoop penalty requests catU catcherU maxMoves fuel st = (st2, exit) →
    st.catMoveScore = 0 → st.catcherMoveScore = 0 → st.moveCount + fuel = maxMoves →
    st2.board.side = st.board.side ∧ st2.moveCount ≤ maxMoves ∧
    (exit = .capped → st2.catMoveScore = 0 ∧ st2.catcherMoveScore = 0 ∧
      st2.moveCount = maxMoves) ∧
    (exit = .gameOver → st2.catMoveScore = 0 ∧ st2.catcherMoveScore = 0 ∧
      (st2.board.getGameResult).isOver = true) ∧
    (∀ t, exit = .failedBy t → st2.moveCount < maxMoves ∧
      (t = .cat → st2.catcherMoveScore = (maxMoves : Rat) - st2.moveCount ∧
        st2.catMoveScore = st2.moveCount) ∧
      (t = .catcher → st2.catMoveScore = (maxMoves : Rat) - st2.moveCount ∧
        st2.catcherMoveScore = st2.moveCount)) := by
  induction fuel with
  | zero =>
    intro st st2 exit h hc hch hcount
    simp only [runLoop, Prod.mk.injEq] at h
    obtain ⟨h1, h2⟩ := h
    subst h1
    subst h2
    refine ⟨rfl, by omega, fun _ => ⟨hc, hch, by omega⟩, ?_, ?_⟩
    · intro hx; exact (nomatch hx)
    · intro t hx; exact (nomatch hx)
  | succ fuel ih =>
    intro st st2 exit h hc hch hcount
    simp only [runLoop] at h
    by_cases hov : (st.board.getGameResult).isOver = true
    · rw [if_pos hov] at h
      obtain ⟨h1, h2⟩ := Prod.mk.injEq _ _ _ _ ▸ h
      subst h1
      subst h2
      refine ⟨rfl, by omega, ?_, fun _ => ⟨hc, hch, hov⟩, ?_⟩
      · intro hx; exact (nomatch hx)
      · intro t hx; exact (nomatch hx)
    · rw [if_neg hov] at h
      rcases hstep : matchStep penalty (requests st.moveCount) catU catcherU maxMoves st
        with ⟨stA, oe⟩
      rw [hstep] at h
      cases oe with
      | some t0 =>
        simp only [Prod.mk.injEq] at h
        obtain ⟨h1, h2⟩ := h
        subst h1
        subst h2
        have hf := matchStep_fail penalty (requests st.moveCount) catU catcherU
          maxMoves st stA t0 hstep
        refine ⟨hf.2.2.1, by omega, ?_, ?_, ?_⟩
        · intro hx; exact (nomatch hx)
        · intro hx; exact (nomatch hx)
        · intro t hx
          have ht : t = t0 := by
            cases hx
            rfl
          subst ht
          refine ⟨by omega, ?_, ?_⟩
          · intro htc
            have := hf.2.2.2.1 htc
            rw [hf.2.1]
            exact this
          · intro htc
            have := hf.2.2.2.2 htc
            rw [hf.2.1]
            exact this
      | none =>
        have hcont := matchStep_continue penalty (requests st.moveCount) catU catcherU
          maxMoves st stA hstep
        have hrec := ih stA st2 exit h (by rw [hcont.2.1]; exact hc)
          (by rw [hcont.2.2.1]; exact hch) (by omega)
        refine ⟨by rw [hrec.1, hcont.2.2.2], hrec.2.1, hrec.2.2.1, hrec.2.2.2.1,
          hrec.2.2.2.2⟩

theorem finalScoring_proj (maxMoves : Nat) (st : MatchState) :
    (finalScoring maxMoves st).board = st.board ∧
    (finalScoring maxMoves st).moveCount = st.moveCount ∧
    (finalScoring maxMoves st).moves = st.moves ∧
    (finalScoring maxMoves st).catTimeScore = st.catTimeScore ∧
    (finalScoring maxMoves st).catcherTimeScore = st.catcherTimeScore := by
  simp only [finalScoring]
  split
  · split <;> exact ⟨rfl, rfl, rfl, rfl, rfl⟩
  · exact ⟨rfl, rfl, rfl, rfl, rfl⟩

theorem finalScoring_skip (maxMoves : Nat) (st : MatchState)
    (h : ¬(st.catMoveScore = 0 ∧ st.catcherMoveScore = 0)) :
    finalScoring maxMoves st = st := by
  simp only [finalScoring]
  rw [if_neg]
  intro hcond
  exact h ⟨hcond.2.1, hcond.2.2⟩

theorem finalScoring_win (maxMoves : Nat) (st : MatchState)
    (hc : st.catMoveScore = 0) (hch : st.catcherMoveScore = 0)
    (hov : (st.board.getGameResult).isOver = true) :
    ((st.board.getGameResult).winner = some .cat →
      (finalScoring maxMoves st).catMoveScore = (maxMoves : Rat) - st.moveCount ∧
      (finalScoring maxMoves st).catcherMoveScore = st.moveCount) ∧
    (¬((st.board.getGameResult).winner = some .cat) →
      (finalScoring maxMoves st).catcherMoveScore = (maxMoves : Rat) - st.moveCount ∧
      (finalScoring maxMoves st).catMoveScore = st.moveCount) := by
  simp only [finalScoring]
  rw [if_pos ⟨hov, hc, hch⟩]
  constructor
  · intro hw
    rw [if_pos hw]
    exact ⟨rfl, rfl⟩
  · intro hw
    rw [if_neg hw]
    exact ⟨rfl, rfl⟩

theorem construct_ok_spec (raw : List Char) (cp : Position) (cu chu : String)
    (b : Board) (h : Board.construct raw cp cu chu = .ok b) :
    b.side % 4 = 1 ∧ 1 ≤ b.side ∧ b.turn = .cat ∧
    b.board.length = b.side * b.side := by
  unfold Board.construct at h
  by_cases hsq : Nat.sqrt (replaceFirstC (raw.filter (fun c => !(isJsWhitespace c)))).length *
      Nat.sqrt (replaceFirstC (raw.filter (fun c => !(isJsWhitespace c)))).length =
      (replaceFirstC (raw.filter (fun c => !(isJsWhitespace c)))).length
  · rw [if_pos hsq] at h
    by_cases hmod : ((Nat.sqrt (replaceFirstC (raw.filter (fun c => !(isJsWhitespace c)))).length : Int) - 1) % 4 = 0
    · rw [if_pos hmod] at h
      injection h with h
      subst h
      refine ⟨?_, ?_, rfl, hsq.symm⟩
      · show Nat.sqrt (replaceFirstC (raw.filter (fun c => !(isJsWhitespace c)))).length % 4 = 1
        omega
      · show 1 ≤ Nat.sqrt (replaceFirstC (raw.filter (fun c => !(isJsWhitespace c)))).length
        omega
    · rw [if_neg hmod] at h
      exact (nomatch h)
  · rw [if_neg hsq] at h
    exact (nomatch h)

/-! ### Claim theorems -/

/-- C2: board-string run-length-encoding round trip: for every string over
the two-symbol alphabet dot / hash, of every length including 0,
decompressBoard (compressBoard s) = s. -/
theorem claim_C2_rle_roundtrip (s : List Char) (h : ∀ c ∈ s, c = '.' ∨ c = '#') :
    decompressBoard (compressBoard s) = s :=
  rle_roundtrip s (cellAlphabet_not_digit s h)

/-- Witness for C2 at a concrete string with a two-digit run length. -/
theorem claim_C2_witness :
    decompressBoard (compressBoard (List.replicate 12 '.' ++ ['#']))
      = List.replicate 12 '.' ++ ['#'] :=
  claim_C2_rle_roundtrip (List.replicate 12 '.' ++ ['#']) (by decide)

/-- C3: Board.move raises exactly when validateMove is false; a failed call
leaves the whole board state unchanged; a successful call flips the turn
(cat to catcher and conversely). -/
theorem claim_C3_move_raises_iff (b : Board) (p : Position) :
    (((b.move p).2).isSome = true ↔ b.validateMove p = false) ∧
    (((b.move p).2).isSome = true → (b.move p).1 = b) ∧
    ((b.move p).2 = none →
      (b.move p).1.turn = flipTurn b.turn ∧ flipTurn b.turn ≠ b.turn) := by
  have hflip : flipTurn b.turn ≠ b.turn := by
    cases b.turn <;> exact fun hx => (nomatch hx)
  unfold Board.move
  by_cases h : b.validateMove p = false
  · rw [if_pos h]
    exact ⟨by simp [h], fun _ => rfl, fun hx => (nomatch hx)⟩
  · rw [if_neg h]
    have ht : b.validateMove p = true := by
      revert h
      cases b.validateMove p <;> simp
    exact ⟨by simp [ht], fun hx => (nomatch hx), fun _ => ⟨rfl, hflip⟩⟩

/-- Witness for C3: the illegal cat move (2,2) throws and leaves the demo
board unchanged; the legal move (1,0) flips the turn. -/
theorem claim_C3_witness :
    (demoBoardObj.move ⟨2, 2⟩).1 = demoBoardObj ∧
    (demoBoardObj.move ⟨1, 0⟩).1.turn = flipTurn demoBoardObj.turn :=
  ⟨(claim_C3_move_raises_iff demoBoardObj ⟨2, 2⟩).2.1 (by decide),
   ((claim_C3_move_raises_iff demoBoardObj ⟨1, 0⟩).2.2 (by decide)).1⟩

/-- C4: getGameResult reports the cat as winner exactly when the cat sits
on the edge (absolute coordinate equal to floor(N/2)), the catcher exactly
when the cat is not on the edge and all six neighbours read as blocked or
out of bounds, and otherwise the game is not over; the cat-edge check runs
first, so an edge position that is also surrounded resolves as a cat win. -/
theorem claim_C4_win_detection (b : Board) :
    ((b.getGameResult).isOver = true ∧ (b.getGameResult).winner = some .cat ↔
      b.catPosition.x.natAbs = b.side / 2 ∨ b.catPosition.y.natAbs = b.side / 2) ∧
    ((b.getGameResult).isOver = true ∧ (b.getGameResult).winner = some .catcher ↔
      ¬(b.catPosition.x.natAbs = b.side / 2 ∨ b.catPosition.y.natAbs = b.side / 2) ∧
      ∀ n ∈ [hexNE b.catPosition, hexNW b.catPosition, hexE b.catPosition,
        hexW b.catPosition, hexSE b.catPosition, hexSW b.catPosition],
        b.getContent n = true) ∧
    ((b.getGameResult).isOver = false ↔
      ¬(b.catPosition.x.natAbs = b.side / 2 ∨ b.catPosition.y.natAbs = b.side / 2) ∧
      ¬(∀ n ∈ [hexNE b.catPosition, hexNW b.catPosition, hexE b.catPosition,
        hexW b.catPosition, hexSE b.catPosition, hexSW b.catPosition],
        b.getContent n = true)) ∧
    ((b.catPosition.x.natAbs = b.side / 2 ∨ b.catPosition.y.natAbs = b.side / 2) →
      (b.getGameResult).winner = some .cat) := by
  have hedge : b.catWinVerification = true ↔
      (b.catPosition.x.natAbs = b.side / 2 ∨ b.catPosition.y.natAbs = b.side / 2) := by
    simp [Board.catWinVerification, Board.sideOver2]
  have hsur : b.catcherWinVerification = true ↔
      ∀ n ∈ [hexNE b.catPosition, hexNW b.catPosition, hexE b.catPosition,
        hexW b.catPosition, hexSE b.catPosition, hexSW b.catPosition],
        b.getContent n = true := by
    simp [Board.catcherWinVerification, List.all_eq_true]
  unfold Board.getGameResult
  by_cases he : b.catWinVerification = true
  · rw [if_pos he]
    refine ⟨?_, ?_, ?_, ?_⟩
    · simp [hedge.mp he]
    · constructor
      · intro hx
        exact absurd hx.2 (by simp)
      · intro hx
        exact absurd (hedge.mp he) hx.1
    · constructor
      · intro hx
        exact (nomatch hx)
      · intro hx
        exact absurd (hedge.mp he) hx.1
    · intro _
      rfl
  · rw [if_neg he]
    have hne : ¬(b.catPosition.x.natAbs = b.side / 2 ∨ b.catPosition.y.natAbs = b.side / 2) :=
      fun hx => he (hedge.mpr hx)
    by_cases hs : b.catcherWinVerification = true
    · rw [if_pos hs]
      refine ⟨?_, ?_, ?_, fun hx => absurd hx hne⟩
      · constructor
        · intro hx
          exact absurd hx.2 (by simp)
        · intro hx
          exact absurd hx hne
      · simp [hne, hsur.mp hs]
      · constructor
        · intro hx
          exact (nomatch hx)
        · intro hx
          exact absurd (hsur.mp hs) hx.2
    · rw [if_neg hs]
      refine ⟨?_, ?_, ?_, fun hx => absurd hx hne⟩
      · constructor
        · intro hx
          exact absurd hx.1 (by simp)
        · intro hx
          exact absurd hx hne
      · constructor
        · intro hx
          exact absurd hx.1 (by simp)
        · intro hx
          exact absurd (hsur.mpr hx.2) hs
      · constructor
        · intro _
          exact ⟨hne, fun hx => hs (hsur.mpr hx)⟩
        · intro _
          rfl

/-- Witness for C4: on the 5x5 board with the cat at (2,0), the cat is
declared winner. -/
theorem claim_C4_witness : (demoEdgeBoard.getGameResult).winner = some Turn.cat :=
  (claim_C4_win_detection demoEdgeBoard).2.2.2 (by decide)

theorem filter_not_ws_eq_self (l : List Char)
    (h : ∀ c ∈ l, isJsWhitespace c = false) :
    l.filter (fun c => !(isJsWhitespace c)) = l :=
  List.filter_eq_self.mpr (fun c hc => by rw [h c hc]; rfl)

theorem replaceFirstC_eq_self (l : List Char) (h : ∀ c ∈ l, c ≠ 'C') :
    replaceFirstC l = l := by
  induction l with
  | nil => rfl
  | cons c rest ih =>
    unfold replaceFirstC
    rw [if_neg (h c (List.mem_cons_self c rest)),
      ih (fun x hx => h x (List.mem_cons_of_mem c hx))]

/-- C8: for a layout with no whitespace and no cat marker, Board
construction succeeds exactly when the layout length is a perfect square
N*N with N of the form 4k+1 (that is, N mod 4 = 1); any other length makes
the constructor throw. -/
theorem claim_C8_construct (layout : List Char) (cp : Position) (cu chu : String)
    (hclean : ∀ c ∈ layout, isJsWhitespace c = false ∧ c ≠ 'C') :
    (Board.construct layout cp cu chu).isOk = true ↔
      ∃ s, layout.length = s * s ∧ s % 4 = 1 := by
  have hf : layout.filter (fun c => !(isJsWhitespace c)) = layout :=
    filter_not_ws_eq_self layout (fun c hc => (hclean c hc).1)
  have hr : replaceFirstC layout = layout :=
    replaceFirstC_eq_self layout (fun c hc => (hclean c hc).2)
  unfold Board.construct
  rw [hf, hr]
  show (if Nat.sqrt layout.length * Nat.sqrt layout.length = layout.length then
      if ((Nat.sqrt layout.length : Int) - 1) % 4 = 0 then
        Except.ok (Board.mk (Nat.sqrt layout.length) .cat layout cp cu chu)
      else Except.error "The side size must be 4*i+1, where i is an integer"
    else Except.error "Invalid board: length must be a perfect square").isOk = true ↔
    ∃ s, layout.length = s * s ∧ s % 4 = 1
  constructor
  · intro h
    by_cases hsq : Nat.sqrt layout.length * Nat.sqrt layout.length = layout.length
    · rw [if_pos hsq] at h
      by_cases hmod : ((Nat.sqrt layout.length : Int) - 1) % 4 = 0
      · exact ⟨Nat.sqrt layout.length, hsq.symm, by omega⟩
      · rw [if_neg hmod] at h
        exact (nomatch h)
    · rw [if_neg hsq] at h
      exact (nomatch h)
  · rintro ⟨s, hlen, hmod⟩
    have hsq : Nat.sqrt layout.length = s := by
      rw [hlen]
      exact Nat.sqrt_eq s
    rw [hsq, if_pos (by rw [hlen]), if_pos (by omega)]
    rfl

/-- Witness for C8: the 25-cell layout constructs (side 5 = 4*1+1). -/
theorem claim_C8_witness : (Board.construct demoBoard5 ⟨0, 0⟩ "a" "b").isOk = true :=
  (claim_C8_construct demoBoard5 ⟨0, 0⟩ "a" "b" (by decide)).mpr ⟨5, by decide, by decide⟩

/-- C9: when the external process exits on its own (no exec error), its
output parses, but the measured wall-clock time is at or above the fixed
timeout, the result is the timeout classification (no move, timeout error),
never a validMove. -/
theorem claim_C9_late_exit_timeout (parsed : Except String ParseResult)
    (pr : ParseResult) (executionTime : Rat)
    (hp : parsed = .ok pr) (ht : moveTimeout ≤ executionTime) :
    requestMoveClassify none parsed executionTime
      = ⟨none, moveTimeout, some "Timeout exceeded"⟩ := by
  subst hp
  show (if executionTime ≥ moveTimeout then
      (⟨none, moveTimeout, some "Timeout exceeded"⟩ : MoveResult)
    else ⟨some pr.move, pr.processingTime, none⟩)
    = ⟨none, moveTimeout, some "Timeout exceeded"⟩
  rw [if_pos (show executionTime ≥ moveTimeout from ht)]

/-- Witness for C9: a well-parsed exit at 2500ms elapsed is classified as
a timeout. -/
theorem claim_C9_witness :
    requestMoveClassify none (.ok ⟨⟨0, 0⟩, 5⟩) 2500
      = ⟨none, moveTimeout, some "Timeout exceeded"⟩ :=
  claim_C9_late_exit_timeout _ ⟨⟨0, 0⟩, 5⟩ 2500 rfl (by norm_num [moveTimeout])

theorem winner_some_isOver (b : Board) (w : Turn)
    (h : (b.getGameResult).winner = some w) : (b.getGameResult).isOver = true := by
  unfold Board.getGameResult at h ⊢
  by_cases h1 : b.catWinVerification = true
  · rw [if_pos h1]
  · rw [if_neg h1] at h ⊢
    by_cases h2 : b.catcherWinVerification = true
    · rw [if_pos h2]
    · rw [if_neg h2] at h
      exact (nomatch h)

/-- C5: every match that ends decided (a per-move failure or a decided win)
at move count m on a board of area A = N*N records move score m for the
losing side, A - m for the winning side, and the two sum to A. -/
theorem claim_C5_move_score_split (penalty : Rat → Rat) (requests : Nat → MoveResult)
    (catU catcherU : String) (initialState : List Char)
    (rep : MatchReport) (fin : MatchState) (exit : LoopExit)
    (h : runMatch penalty requests catU catcherU initialState = .ok (rep, fin, exit)) :
    (∀ t, exit = .failedBy t →
      rep.moveScoreOf t = (fin.moveCount : Rat) ∧
      rep.moveScoreOf (flipTurn t)
        = ((fin.board.side * fin.board.side : Nat) : Rat) - (fin.moveCount : Rat) ∧
      rep.catMoveScore + rep.catcherMoveScore
        = ((fin.board.side * fin.board.side : Nat) : Rat)) ∧
    (∀ w, (fin.board.getGameResult).winner = some w →
      (exit = .gameOver ∨ exit = .capped) →
      rep.moveScoreOf w
        = ((fin.board.side * fin.board.side : Nat) : Rat) - (fin.moveCount : Rat) ∧
      rep.moveScoreOf (flipTurn w) = (fin.moveCount : Rat) ∧
      rep.catMoveScore + rep.catcherMoveScore
        = ((fin.board.side * fin.board.side : Nat) : Rat)) := by
  unfold runMatch at h
  cases hcon : Board.construct initialState ⟨0, 0⟩ catU catcherU with
  | error e =>
    rw [hcon] at h
    exact (nomatch h)
  | ok b =>
    rw [hcon] at h
    simp only [Except.bind, bind] at h
    rcases hloop : runLoop penalty requests catU catcherU (b.side * b.side)
      (b.side * b.side) ⟨b, 0, [], 0, 0, 0, 0⟩ with ⟨st1, ex2⟩
    rw [hloop] at h
    injection h with h
    injection h with h1 h2
    injection h2 with h2 h3
    subst h1
    subst h2
    subst h3
    have hspec := runLoop_spec penalty requests catU catcherU (b.side * b.side)
      (b.side * b.side) ⟨b, 0, [], 0, 0, 0, 0⟩ st1 ex2 hloop rfl rfl (Nat.zero_add _)
    have hfinp := finalScoring_proj (b.side * b.side) st1
    have hside : st1.board.side = b.side := hspec.1
    constructor
    · intro t hex
      have hfail := hspec.2.2.2.2 t hex
      have hlt : st1.moveCount < b.side * b.side := hfail.1
      have hltq : (st1.moveCount : Rat) < ((b.side * b.side : Nat) : Rat) := by
        exact_mod_cast hlt
      have hskip : finalScoring (b.side * b.side) st1 = st1 := by
        apply finalScoring_skip
        rintro ⟨hc0, hch0⟩
        cases t with
        | cat =>
          have hsp := hfail.2.1 rfl
          rw [hsp.1] at hch0
          linarith
        | catcher =>
          have hsp := hfail.2.2 rfl
          rw [hsp.1] at hc0
          linarith
      rw [hskip, hside]
      cases t with
      | cat =>
        have hsp := hfail.2.1 rfl
        exact ⟨hsp.2, hsp.1, by rw [hsp.1, hsp.2]; ring⟩
      | catcher =>
        have hsp := hfail.2.2 rfl
        exact ⟨hsp.2, hsp.1, by rw [hsp.1, hsp.2]; ring⟩
    · intro w hw hex
      have hz : st1.catMoveScore = 0 ∧ st1.catcherMoveScore = 0 ∧
          (st1.board.getGameResult).isOver = true := by
        rcases hex with hex | hex
        · have hg := hspec.2.2.2.1 hex
          exact ⟨hg.1, hg.2.1, hg.2.2⟩
        · have hg := hspec.2.2.1 hex
          refine ⟨hg.1, hg.2.1, ?_⟩
          apply winner_some_isOver st1.board w
          rw [← hfinp.1]
          exact hw
      have hw1 : (st1.board.getGameResult).winner = some w := by
        rw [← hfinp.1]
        exact hw
      have hwin := finalScoring_win (b.side * b.side) st1 hz.1 hz.2.1 hz.2.2
      rw [hfinp.1, hside, hfinp.2.1]
      cases w with
      | cat =>
        have hc := hwin.1 hw1
        exact ⟨hc.1, hc.2, by rw [hc.1, hc.2]; ring⟩
      | catcher =>
        have hnc : ¬((st1.board.getGameResult).winner = some .cat) := by
          rw [hw1]
          intro hcontra
          injection hcontra with hcontra
          exact (nomatch hcontra)
        have hc := hwin.2 hnc
        exact ⟨hc.1, hc.2, by rw [hc.1, hc.2]; ring⟩

/-- Witness for C5: the demo match (instant cat timeout on the 25-cell
board) splits the scores as 0 for the cat and 25 - 0 for the catcher. -/
theorem claim_C5_witness :
    demoFailTriple.1.moveScoreOf Turn.cat = (demoFailTriple.2.1.moveCount : Rat) ∧
    demoFailTriple.1.moveScoreOf (flipTurn Turn.cat)
      = ((demoFailTriple.2.1.board.side * demoFailTriple.2.1.board.side : Nat) : Rat)
        - (demoFailTriple.2.1.moveCount : Rat) ∧
    demoFailTriple.1.catMoveScore + demoFailTriple.1.catcherMoveScore
      = ((demoFailTriple.2.1.board.side * demoFailTriple.2.1.board.side : Nat) : Rat) :=
  (claim_C5_move_score_split demoPenalty (fun _ => ⟨none, 2000, some "Timeout exceeded"⟩)
    "a" "b" demoBoard5 demoFailTriple.1 demoFailTriple.2.1 demoFailTriple.2.2
    (by with_unfolding_all rfl)).1 Turn.cat (by with_unfolding_all rfl)

theorem accruePenalty_time (penalty : Rat → Rat) (time : Rat) (st : MatchState) :
    (st.board.turn = .cat →
      (accruePenalty penalty time st).catTimeScore = st.catTimeScore + penalty time ∧
      (accruePenalty penalty time st).catcherTimeScore = st.catcherTimeScore) ∧
    (st.board.turn = .catcher →
      (accruePenalty penalty time st).catcherTimeScore
        = st.catcherTimeScore + penalty time ∧
      (accruePenalty penalty time st).catTimeScore = st.catTimeScore) := by
  unfold accruePenalty
  rcases htn : st.board.turn
  · exact ⟨fun _ => ⟨rfl, rfl⟩, fun hx => (nomatch hx)⟩
  · exact ⟨fun hx => (nomatch hx), fun _ => ⟨rfl, rfl⟩⟩

/-- C6 (amended): in one loop iteration of runMatch, the time penalty of
the current move is added to the accumulator of the side to move (the turn
before any switch) for every move request that returns a usable move
without error — i.e. both for moves the board then accepts (validMove) and
for moves it rejects (invalidMove), since the source accrues the penalty
before calling board.move; requests classified timeout or processError
(error present or no move) accrue nothing to either side. -/
theorem claim_C6_penalty_accrual_amended (penalty : Rat → Rat) (mr : MoveResult)
    (catU catcherU : String) (maxMoves : Nat) (st : MatchState) :
    (∀ mv : Position, mr.move = some mv → jsTruthyStr mr.error = false →
      (st.board.turn = .cat →
        (matchStep penalty mr catU catcherU maxMoves st).1.catTimeScore
          = st.catTimeScore + penalty mr.time ∧
        (matchStep penalty mr catU catcherU maxMoves st).1.catcherTimeScore
          = st.catcherTimeScore) ∧
      (st.board.turn = .catcher →
        (matchStep penalty mr catU catcherU maxMoves st).1.catcherTimeScore
          = st.catcherTimeScore + penalty mr.time ∧
        (matchStep penalty mr catU catcherU maxMoves st).1.catTimeScore
          = st.catTimeScore)) ∧
    ((mr.move = none ∨ jsTruthyStr mr.error = true) →
      (matchStep penalty mr catU catcherU maxMoves st).1.catTimeScore
        = st.catTimeScore ∧
      (matchStep penalty mr catU catcherU maxMoves st).1.catcherTimeScore
        = st.catcherTimeScore) := by
  constructor
  · intro mv hm he
    have hkey : (matchStep penalty mr catU catcherU maxMoves st).1.catTimeScore
        = (accruePenalty penalty mr.time st).catTimeScore ∧
        (matchStep penalty mr catU catcherU maxMoves st).1.catcherTimeScore
        = (accruePenalty penalty mr.time st).catcherTimeScore := by
      unfold matchStep
      simp only [hm, he, Bool.false_eq_true, if_false]
      rcases hbm : (accruePenalty penalty mr.time st).board.move mv with ⟨b2, e⟩
      cases e with
      | none => exact ⟨rfl, rfl⟩
      | some msg =>
        exact ⟨(failScores_proj _ _ _).2.2.1, (failScores_proj _ _ _).2.2.2⟩
    have hat := accruePenalty_time penalty mr.time st
    constructor
    · intro ht
      exact ⟨by rw [hkey.1]; exact (hat.1 ht).1, by rw [hkey.2]; exact (hat.1 ht).2⟩
    · intro ht
      exact ⟨by rw [hkey.2]; exact (hat.2 ht).1, by rw [hkey.1]; exact (hat.2 ht).2⟩
  · intro hor
    unfold matchStep
    rcases hm2 : mr.move with _ | mv
    · exact ⟨(failScores_proj _ _ _).2.2.1, (failScores_proj _ _ _).2.2.2⟩
    · have he : jsTruthyStr mr.error = true := by
        rcases hor with hh | hh
        · rw [hm2] at hh
          exact (nomatch hh)
        · exact hh
      simp only [he, if_true]
      exact ⟨(failScores_proj _ _ _).2.2.1, (failScores_proj _ _ _).2.2.2⟩

/-- Witness for C6 (amended): a usable legal move by the cat bills the cat
accumulator and leaves the catcher accumulator alone. -/
theorem claim_C6_witness :
    (matchStep demoPenalty ⟨some ⟨1, 0⟩, 1000000, none⟩ "a" "b" 25 demoState).1.catTimeScore
      = demoState.catTimeScore + demoPenalty 1000000 ∧
    (matchStep demoPenalty ⟨some ⟨1, 0⟩, 1000000, none⟩ "a" "b" 25 demoState).1.catcherTimeScore
      = demoState.catcherTimeScore :=
  ((claim_C6_penalty_accrual_amended demoPenalty ⟨some ⟨1, 0⟩, 1000000, none⟩ "a" "b" 25
    demoState).1 ⟨1, 0⟩ rfl rfl).1 rfl

/-- Counterexample to C6 as stated: the request carries a well-formed but
board-illegal move (2,2) with no error; the iteration classifies it as an
invalid move (the recorded error is the board rejection message and the
match ends charging the cat side), yet the cat time-penalty accumulator
changes — the penalty was accrued before board.move threw. -/
theorem claim_C6_counterexample :
    demoInvalidMove.error = none ∧
    demoInvalidMove.move = some ⟨2, 2⟩ ∧
    demoState.board.validateMove ⟨2, 2⟩ = false ∧
    (matchStep demoPenalty demoInvalidMove "a" "b" 25 demoState).2 = some Turn.cat ∧
    (matchStep demoPenalty demoInvalidMove "a" "b" 25 demoState).1.moves.map
      (fun m => m.error) = [some "Invalid move: (2,2) for cat"] ∧
    ¬((matchStep demoPenalty demoInvalidMove "a" "b" 25 demoState).1.catTimeScore
      = demoState.catTimeScore) := by
  refine ⟨rfl, rfl, by decide, ?_, ?_, ?_⟩ <;> with_unfolding_all decide

/-- C10: frame effect of a successful move on a well-formed board (grid
length N*N, odd side, two-symbol alphabet): a cat move changes only the cat
position (and the turn), leaving the grid untouched; a catcher move leaves
the cat position untouched and changes the grid at exactly the single index
positionToIndex(p), from an empty cell to a blocked one. -/
theorem claim_C10_frame (b : Board) (p : Position)
    (hlen : b.board.length = b.side * b.side) (hodd : b.side % 2 = 1)
    (halpha : ∀ c ∈ b.board, c = '.' ∨ c = '#') (hmv : (b.move p).2 = none) :
    (b.turn = .cat →
      (b.move p).1.board = b.board ∧ (b.move p).1.catPosition = p ∧
      (b.move p).1.side = b.side) ∧
    (b.turn = .catcher →
      (b.move p).1.catPosition = b.catPosition ∧ (b.move p).1.side = b.side ∧
      b.board.get? (b.positionToIndex p).toNat = some '.' ∧
      (b.move p).1.board.get? (b.positionToIndex p).toNat = some '#' ∧
      ∀ j, j ≠ (b.positionToIndex p).toNat →
        (b.move p).1.board.get? j = b.board.get? j) := by
  have hval : b.validateMove p = true := by
    by_cases hv : b.validateMove p = false
    · exfalso
      unfold Board.move at hmv
      rw [if_pos hv] at hmv
      exact (nomatch hmv)
    · revert hv
      cases b.validateMove p <;> simp
  have hmove : b.move p =
      ({ (match b.turn with
          | .cat => { b with catPosition := p }
          | .catcher => b.setContent p true) with turn := flipTurn b.turn }, none) := by
    unfold Board.move
    rw [if_neg (by simp [hval])]
  constructor
  · intro ht
    rw [ht] at hmove
    rw [hmove]
    exact ⟨rfl, rfl, rfl⟩
  · intro ht
    rw [ht] at hmove
    unfold Board.validateMove at hval
    rw [ht] at hval
    have hcc := hval
    unfold Board.catcherCanMoveToPosition at hcc
    simp only [Bool.and_eq_true, Bool.not_eq_true', decide_eq_true_eq] at hcc
    obtain ⟨⟨⟨hnp, hx⟩, hy⟩, hcontent⟩ := hcc
    have hvalidpos : b.isValidPosition p = true := by
      unfold Board.isValidPosition
      simp only [decide_eq_true_eq]
      unfold Board.sideOver2 at hx hy ⊢
      omega
    have hsetc : b.setContent p true =
        { b with board := b.board.set (b.positionToIndex p).toNat '#' } := by
      unfold Board.setContent
      rw [if_neg (by simp [hvalidpos])]
      rfl
    have hbounds : -(((b.side / 2 : Nat) : Int)) ≤ p.x ∧ p.x ≤ ((b.side / 2 : Nat) : Int) ∧
        p.y ≤ ((b.side / 2 : Nat) : Int) ∧ -(((b.side / 2 : Nat) : Int)) ≤ p.y := by
      unfold Board.isValidPosition at hvalidpos
      simp only [decide_eq_true_eq] at hvalidpos
      unfold Board.sideOver2 at hvalidpos
      exact hvalidpos
    have hidx : (b.positionToIndex p).toNat < b.board.length := by
      rw [hlen]
      have hpi : b.positionToIndex p
          = (p.y + ((b.side / 2 : Nat) : Int)) * (b.side : Int) + p.x
            + ((b.side / 2 : Nat) : Int) := by
        unfold Board.positionToIndex Board.sideOver2
        rfl
      have hcast : ((b.side * b.side : Nat) : Int) = (b.side : Int) * (b.side : Int) := by
        push_cast
        ring
      have h2 : 2 * ((b.side / 2 : Nat) : Int) + 1 = (b.side : Int) := by omega
      have hc : 0 ≤ p.y + ((b.side / 2 : Nat) : Int) ∧
          p.y + ((b.side / 2 : Nat) : Int) ≤ (b.side : Int) - 1 := by omega
      have ha : 0 ≤ p.x + ((b.side / 2 : Nat) : Int) ∧
          p.x + ((b.side / 2 : Nat) : Int) ≤ (b.side : Int) - 1 := by omega
      have h0 : 0 ≤ b.positionToIndex p := by
        rw [hpi]
        have hm := mul_nonneg hc.1 (show (0 : Int) ≤ (b.side : Int) by omega)
        linarith [ha.1]
      have h1 : b.positionToIndex p < ((b.side * b.side : Nat) : Int) := by
        rw [hpi, hcast]
        nlinarith [hc.1, hc.2, ha.1, ha.2, h2]
      omega
    have hgetd : ¬(b.board.getD (b.positionToIndex p).toNat 'λ' = '#') := by
      unfold Board.getContent at hcontent
      rw [if_neg (by simp [hvalidpos])] at hcontent
      simpa using hcontent
    have hget : b.board.get? (b.positionToIndex p).toNat = some '.' := by
      rw [List.getD_eq_getElem _ _ hidx] at hgetd
      rcases halpha (b.board[(b.positionToIndex p).toNat]) (List.getElem_mem hidx)
        with h1 | h1
      · rw [List.get?_eq_getElem?, List.getElem?_eq_getElem hidx, h1]
      · exact absurd h1 hgetd
    rw [hmove, hsetc]
    refine ⟨rfl, rfl, hget, ?_, ?_⟩
    · show (b.board.set (b.positionToIndex p).toNat '#').get?
        (b.positionToIndex p).toNat = some '#'
      rw [List.get?_eq_getElem?]
      exact List.getElem?_set_eq_of_lt '#' hidx
    · intro j hj
      show (b.board.set (b.positionToIndex p).toNat '#').get? j = b.board.get? j
      rw [List.get?_eq_getElem?, List.get?_eq_getElem?]
      exact List.getElem?_set_ne (fun hh => hj hh.symm)

/-- Witness for C10: on the 5x5 empty board with the catcher to move,
blocking (1,0) writes a single blocked marker at index 13 and leaves the
cat position alone. -/
theorem claim_C10_witness :
    (demoCatcherBoard.move ⟨1, 0⟩).1.board.get? 13 = some '#' ∧
    (demoCatcherBoard.move ⟨1, 0⟩).1.catPosition = demoCatcherBoard.catPosition := by
  have h := (claim_C10_frame demoCatcherBoard ⟨1, 0⟩ (by decide) (by decide)
    (by decide) (by decide)).2 rfl
  exact ⟨h.2.2.2.1, h.1⟩

/-- C1 (amended): decompacting a compacted CompetitionReport restores every
MatchReport field-for-field (usernames through the index table, turns,
times, moves, errors under the falsy-omission rule, scores and the
RLE-compressed initial state) and restores every UserScore except its two
win-counter properties, which decompaction leaves absent. The hypotheses
hold for every simulator-produced report: initial boards come from the
two-symbol generator, recorded errors are never the empty string, and every
high-score username belongs to some match. -/
theorem claim_C1_roundtrip_amended (r : CompetitionReport)
    (hboard : ∀ mt ∈ r.matches_, ∀ c ∈ mt.initialState.board, c = '.' ∨ c = '#')
    (herr : ∀ mt ∈ r.matches_, ∀ mv ∈ mt.moves, mv.error ≠ some "")
    (hhs : ∀ s ∈ r.highScores, s.username ∈ participants r) :
    deoptimizeCompetitionReport (optimizeCompetitionReport r)
      = ⟨r.matches_, r.highScores.map eraseWins⟩ :=
  deopt_opt_report r hboard herr hhs

/-- Witness for C1 (amended) on the demo competition report. -/
theorem claim_C1_witness :
    deoptimizeCompetitionReport (optimizeCompetitionReport demoReport)
      = ⟨demoReport.matches_, demoReport.highScores.map eraseWins⟩ :=
  claim_C1_roundtrip_amended demoReport (by with_unfolding_all decide)
    (by with_unfolding_all decide) (by with_unfolding_all decide)

set_option maxRecDepth 40000 in
/-- Counterexample to C1 as stated: the demo report is produced by the
simulator pipeline, and decompacting its compacted form does not return it
— the win counters of the high scores are dropped by
deoptimizeCompetitionReport. -/
theorem claim_C1_counterexample :
    demoReportE = .ok demoReport ∧
    deoptimizeCompetitionReport (optimizeCompetitionReport demoReport) ≠ demoReport := by
  constructor
  · with_unfolding_all rfl
  · with_unfolding_all decide

/-- C7 at its failing input: folding the demo matches (each decided,
catcher move score 25 versus 0), every winner ends with a NaN win counter
(undefined + 1) and every loser with an absent one — the UserScore class
never declares or initialises the counters calculateUserScores increments,
so no counter is ever a well-defined non-negative integer. -/
theorem claim_C7_wins_not_integers :
    (calculateUserScores ["a", "b"] demoReport.matches_).map
      (fun l => l.map (fun s => (s.username, s.catWins, s.catcherWins)))
      = .ok [("a", JsNum.undef, JsNum.nan), ("b", JsNum.undef, JsNum.nan)] := by
  with_unfolding_all rfl

end CatchTheCat
